import Mathlib

/-!
Verification of the structural coverage auditor (`scripts/coverage-audit.py`).

The development shallowly embeds the audit engine: element extraction
filtering, per-file coverage checking, gap classification, shared-element
detection, gap sorting, and source-file enumeration.  Python floats are
modelled by `ℚ` (all percentages here are ratios of small integers, far from
any binary-representation boundary, and `round(x, 1)` is modelled by exact
rational rounding to one decimal); the Python `re` pattern matching is either
translated to explicit string predicates (test-filename conventions, which
use only literal alternatives, anchored suffixes and `.*` wildcards) or
abstracted as an oracle supplying the per-pattern match lists (element
extraction, where every claim is quantified over all possible match lists);
Python sets that are only filtered, sorted or counted are modelled as lists.
-/

namespace CoverageAudit

/-! ## String utilities -/

/-- ASCII lowercasing, modelling Python `str.lower()` on the ASCII identifier
names compared against the skip-set (non-ASCII characters are fixed by
`Char.toLower` and can never equal an ASCII skip-set entry anyway). -/
def lowerStr (s : String) : String :=
  String.mk (s.data.map Char.toLower)

/-- The part of a path after the last slash, modelling `os.path.basename`
on POSIX paths. -/
def basename (s : String) : String :=
  String.mk ((s.data.reverse.takeWhile (fun c => c ≠ '/')).reverse)

/-- Whether `suf` is a suffix of `s`, modelling an `re.search` of an
`$`-anchored literal pattern (filenames contain no newline). -/
def strEndsWith (s suf : String) : Bool :=
  suf.data.isSuffixOf s.data

/-- Whether `sub` is a prefix of some tail of `l`. -/
def listIsInfixOf (sub : List Char) : List Char → Bool
  | [] => sub.isEmpty
  | b :: l => sub.isPrefixOf (b :: l) || listIsInfixOf sub l

/-- Whether `sub` occurs contiguously inside `s`, modelling an unanchored
`re.search` of a literal pattern. -/
def strContainsSub (s sub : String) : Bool :=
  listIsInfixOf sub.data s.data

/-- Drop the last `n` characters of `s` (used to strip a known suffix). -/
def dropRightStr (s : String) (n : Nat) : String :=
  String.mk (s.data.take (s.data.length - n))

/-! ## Python `sorted` / `list.sort`

`pySort le` is a stable insertion sort: each element of the input is
inserted after all previously inserted elements `b` with `le b a`.  For a
total transitive `le` this produces exactly the stable ascending ordering
that the Python `sorted` and `list.sort` functions guarantee. -/

/-- Insert `a` into `l` after every element `b` with `le b a`. -/
def insertLe (le : α → α → Bool) (a : α) : List α → List α
  | [] => [a]
  | b :: l => if le b a then b :: insertLe le a l else a :: b :: l

/-- Stable insertion sort, modelling Python `sorted(l, key)` with `le` the
key comparison. -/
def pySort (le : α → α → Bool) (l : List α) : List α :=
  l.foldl (fun acc x => insertLe le x acc) []

theorem mem_insertLe (le : α → α → Bool) (a x : α) :
    ∀ l : List α, (x ∈ insertLe le a l ↔ x = a ∨ x ∈ l)
  | [] => by simp [insertLe]
  | b :: l => by
    by_cases h : le b a = true
    · rw [insertLe, if_pos h]
      simp only [List.mem_cons, mem_insertLe le a x l]
      try tauto
    · rw [insertLe, if_neg h]
      simp only [List.mem_cons]
      try tauto

theorem pairwise_insertLe (le : α → α → Bool)
    (htot : ∀ a b, le a b = true ∨ le b a = true)
    (htrans : ∀ a b c, le a b = true → le b c = true → le a c = true)
    (a : α) : ∀ l : List α, l.Pairwise (fun x y => le x y = true) →
      (insertLe le a l).Pairwise (fun x y => le x y = true)
  | [], _ => by simp [insertLe]
  | b :: l, hp => by
    rcases List.pairwise_cons.1 hp with ⟨hb, hl⟩
    by_cases h : le b a = true
    · rw [insertLe, if_pos h]
      refine List.pairwise_cons.2 ⟨?_, pairwise_insertLe le htot htrans a l hl⟩
      intro y hy
      rcases (mem_insertLe le a y l).1 hy with rfl | hmem
      · exact h
      · exact hb y hmem
    · rw [insertLe, if_neg h]
      have hab : le a b = true := (htot a b).resolve_right h
      refine List.pairwise_cons.2 ⟨?_, hp⟩
      intro y hy
      rcases List.mem_cons.1 hy with rfl | hmem
      · exact hab
      · exact htrans a b y hab (hb y hmem)

theorem pairwise_pySort_aux (le : α → α → Bool)
    (htot : ∀ a b, le a b = true ∨ le b a = true)
    (htrans : ∀ a b c, le a b = true → le b c = true → le a c = true) :
    ∀ (l acc : List α), acc.Pairwise (fun x y => le x y = true) →
      (l.foldl (fun acc x => insertLe le x acc) acc).Pairwise (fun x y => le x y = true)
  | [], _, h => h
  | x :: l, acc, h =>
    pairwise_pySort_aux le htot htrans l (insertLe le x acc)
      (pairwise_insertLe le htot htrans x acc h)

theorem pairwise_pySort (le : α → α → Bool)
    (htot : ∀ a b, le a b = true ∨ le b a = true)
    (htrans : ∀ a b c, le a b = true → le b c = true → le a c = true)
    (l : List α) : (pySort le l).Pairwise (fun x y => le x y = true) :=
  pairwise_pySort_aux le htot htrans l [] List.Pairwise.nil

theorem mem_pySort_aux (le : α → α → Bool) (x : α) :
    ∀ (l acc : List α),
      (x ∈ l.foldl (fun acc y => insertLe le y acc) acc ↔ x ∈ acc ∨ x ∈ l)
  | [], acc => by simp
  | y :: l, acc => by
    rw [List.foldl_cons, mem_pySort_aux le x l (insertLe le y acc)]
    rw [mem_insertLe le y x acc]
    simp only [List.mem_cons]
    tauto

theorem mem_pySort (le : α → α → Bool) (x : α) (l : List α) :
    x ∈ pySort le l ↔ x ∈ l := by
  rw [pySort, mem_pySort_aux le x l []]
  simp

/-! ## Python string comparison

Python compares strings lexicographically by Unicode code point; `lexLE` is
that order on the underlying character lists. -/

/-- Lexicographic code-point comparison of character lists, modelling the
Python `<=` used by `sorted` on strings. -/
def lexLE : List Char → List Char → Bool
  | [], _ => true
  | _ :: _, [] => false
  | a :: as, b :: bs =>
    if a.toNat < b.toNat then true
    else if b.toNat < a.toNat then false
    else lexLE as bs

/-- Python string comparison `a <= b` (code-point lexicographic). -/
def strLE (a b : String) : Bool :=
  lexLE a.data b.data

theorem lexLE_total : ∀ x y : List Char, lexLE x y = true ∨ lexLE y x = true
  | [], _ => Or.inl rfl
  | _ :: _, [] => Or.inr rfl
  | a :: as, b :: bs => by
    by_cases h1 : a.toNat < b.toNat
    · left; simp [lexLE, h1]
    · by_cases h2 : b.toNat < a.toNat
      · right; simp [lexLE, h2, h1]
      · have h := lexLE_total as bs
        simpa [lexLE, h1, h2] using h

theorem lexLE_trans : ∀ x y z : List Char,
    lexLE x y = true → lexLE y z = true → lexLE x z = true
  | [], _, _, _, _ => rfl
  | _ :: _, [], _, h, _ => by simp [lexLE] at h
  | _ :: _, _ :: _, [], _, h2 => by simp [lexLE] at h2
  | a :: as, b :: bs, c :: cs, h1, h2 => by
    simp only [lexLE] at h1 h2 ⊢
    by_cases hab : a.toNat < b.toNat
    · by_cases hbc : b.toNat < c.toNat
      · have hac : a.toNat < c.toNat := by omega
        simp [hac]
      · by_cases hcb : c.toNat < b.toNat
        · rw [if_neg hbc, if_pos hcb] at h2
          simp at h2
        · have hac : a.toNat < c.toNat := by omega
          simp [hac]
    · by_cases hba : b.toNat < a.toNat
      · rw [if_neg hab, if_pos hba] at h1
        simp at h1
      · rw [if_neg hab, if_neg hba] at h1
        by_cases hbc : b.toNat < c.toNat
        · have hac : a.toNat < c.toNat := by omega
          simp [hac]
        · by_cases hcb : c.toNat < b.toNat
          · rw [if_neg hbc, if_pos hcb] at h2
            simp at h2
          · rw [if_neg hbc, if_neg hcb] at h2
            have hac : ¬ a.toNat < c.toNat := by omega
            have hca : ¬ c.toNat < a.toNat := by omega
            rw [if_neg hac, if_neg hca]
            exact lexLE_trans as bs cs h1 h2

theorem strLE_total (a b : String) : strLE a b = true ∨ strLE b a = true :=
  lexLE_total a.data b.data

theorem strLE_trans (a b c : String) :
    strLE a b = true → strLE b c = true → strLE a c = true :=
  lexLE_trans a.data b.data c.data

/-! ## Data model -/

/-- A named code element extracted from a source file
(`extract_elements` returns dicts `{name, type, line}`). -/
structure Element where
  name : String
  type : String
  line : Nat
deriving DecidableEq

/-- A source file record as produced by `enumerate_source_files` and
consumed by the coverage checker and gap classifier (`repo_name` is attached
later by `run_audit`). -/
structure SourceFile where
  file : String
  abs_path : String
  source_lines : Nat
  extension : String
  repo_name : String := ""
deriving DecidableEq

/-- The per-file result dict returned by `check_file_coverage`. -/
structure CoverageResult where
  elements_total : Nat
  elements_covered : Nat
  elements_missing : List String
  coverage_pct : ℚ
  status : String
  method : String
deriving DecidableEq

/-- A gap entry built by `run_audit` for every file whose status is not
ADEQUATE. -/
structure Gap where
  file : String
  repo : String
  source_lines : Nat
  elements_total : Nat
  elements_covered : Nat
  elements_missing : List String
  coverage_pct : ℚ
  status : String
  severity : String
  method : String
deriving DecidableEq

/-- A shared-infrastructure element emitted by `detect_shared_elements`. -/
structure SharedElement where
  name : String
  type : String
  defined_in : String
  line : Nat
  callers : List String
  caller_count : Nat
deriving DecidableEq

/-- The analysis reverse index (`AnalysisIndex` in the source), abstracted
by its two query methods: `is_element_covered` is membership of an element
name in the identifier index, `is_filename_mentioned` membership of a bare
filename in the filename index.  All claims hold for every possible index,
so the `build` walk over markdown files is not embedded. -/
structure AnalysisIndex where
  is_element_covered : String → Bool
  is_filename_mentioned : String → Bool

/-! ## Configuration constants -/

/-- Tracked source-file extensions (`SOURCE_EXTENSIONS`). -/
def SOURCE_EXTENSIONS : List String :=
  [".js", ".jsx", ".ts", ".tsx", ".py", ".rb", ".cs", ".java", ".go",
   ".vue", ".svelte", ".php", ".razor", ".cpp", ".c", ".h", ".sql"]

/-- Directory names always excluded from enumeration
(`DEFAULT_EXCLUDE_DIRS`). -/
def DEFAULT_EXCLUDE_DIRS : List String :=
  ["node_modules", ".git", "dist", "build", "vendor", "__pycache__",
   "bin", "obj", "packages", "x64", "Debug", "Release", ".parcel-cache"]

/-- Element names too generic to track (`SKIP_ELEMENT_NAMES`); compared
against the lowercased candidate name. -/
def SKIP_ELEMENT_NAMES : List String :=
  ["constructor", "__init__", "__del__", "__str__", "__repr__", "__eq__",
   "__hash__", "__len__", "__iter__", "__next__", "__enter__", "__exit__",
   "__getattr__", "__setattr__", "__getitem__", "__setitem__",
   "toString", "hashCode", "equals", "dispose", "finalize", "clone",
   "init", "setup", "teardown", "configure", "register",
   "get", "set", "getter", "setter",
   "render", "mount", "unmount", "update", "destroy",
   "componentDidMount", "componentWillUnmount", "componentDidUpdate",
   "ngOnInit", "ngOnDestroy", "ngOnChanges",
   "created", "mounted", "updated", "destroyed", "beforeCreate",
   "beforeMount", "beforeUpdate", "beforeDestroy",
   "main", "run", "start", "stop", "execute",
   "test", "it", "describe", "beforeEach", "afterEach", "beforeAll",
   "afterAll", "setUp", "tearDown",
   "toJSON", "fromJSON", "serialize", "deserialize", "parse", "stringify",
   "toDict", "from_dict", "to_dict",
   "index", "show", "new", "edit", "create", "store", "delete", "remove"]

/-- Minimum characters for an element name to be tracked
(`MIN_ELEMENT_NAME_LENGTH`). -/
def MIN_ELEMENT_NAME_LENGTH : Nat := 3

/-- Minimum distinct referencing files for a shared element
(`SHARED_ELEMENT_MIN_CALLERS`). -/
def SHARED_ELEMENT_MIN_CALLERS : Nat := 2

/-- Coverage threshold for ADEQUATE status (`ADEQUATE_COVERAGE_PCT`). -/
def ADEQUATE_COVERAGE_PCT : ℚ := 60

/-! ## Element extraction

`extract_elements(file_path, extension)` looks up the pattern list for the
extension and runs each compiled regex over the file content in registry
order.  The regex engine is external; it is abstracted by supplying, for
each `(pattern, elem_type)` pair in registry order, the list of matches
`pattern.finditer(content)` yields, each match giving the captured name
(group 1) and the match start offset.  Every theorem below is quantified
over all such match lists, hence holds for the real matcher output. -/

/-- One regex match: the captured element name and the match start offset
(a character index into the content, as in Python). -/
structure PatternMatch where
  name : String
  start : Nat
deriving DecidableEq

/-- The 1-based line number of a match offset:
`content[:match.start()].count` of newline `+ 1`. -/
def lineNumber (content : String) (start : Nat) : Nat :=
  (content.data.take start).count '\n' + 1

/-- One iteration of the extraction loop body: apply the name-length,
skip-set and already-seen filters to a match of kind `c.2`, and on success
append the new `Element` and record the name as seen.  Mirrors the body of
the `for match in pattern.finditer(content)` loop (an empty captured name is
subsumed by the length test since `MIN_ELEMENT_NAME_LENGTH > 0`). -/
def extractStep (content : String) (acc : List Element × List String)
    (c : PatternMatch × String) : List Element × List String :=
  if c.1.name.length < MIN_ELEMENT_NAME_LENGTH then acc
  else if SKIP_ELEMENT_NAMES.contains (lowerStr c.1.name) then acc
  else if acc.2.contains c.1.name then acc
  else (acc.1 ++ [{ name := c.1.name, type := c.2, line := lineNumber content c.1.start }],
        acc.2 ++ [c.1.name])

/-- `extract_elements`: fold the extraction loop over the match list of
every pattern in registry order, starting from empty `elements` and `seen_names`.
`patterns` lists, per registry rule, the matches of the regex of that rule
paired with the element kind of the rule. -/
def extract_elements (content : String)
    (patterns : List (List PatternMatch × String)) : List Element :=
  (patterns.foldl
    (fun acc p => (p.1.map (fun m => (m, p.2))).foldl (extractStep content) acc)
    ([], [])).1

/-! Specification-side restatement of the extraction loop, used to settle the
first-pattern-wins dedup claim: flatten the matches into one candidate
stream in registry order, keep the candidates passing the length and
skip-set filters, then keep the first occurrence of each name. -/

/-- All (match, kind) candidates in registry order. -/
def specCandidates (patterns : List (List PatternMatch × String)) :
    List (PatternMatch × String) :=
  patterns.flatMap (fun p => p.1.map (fun m => (m, p.2)))

/-- The length and skip-set filters of the extraction loop. -/
def keepCandidate (c : PatternMatch × String) : Bool :=
  !(c.1.name.length < MIN_ELEMENT_NAME_LENGTH) &&
  !(SKIP_ELEMENT_NAMES.contains (lowerStr c.1.name))

/-- First-occurrence-wins accumulation over a filtered candidate stream:
a candidate whose name was already captured is a no-op. -/
def specStep (content : String) (acc : List Element)
    (c : PatternMatch × String) : List Element :=
  if (acc.map Element.name).contains c.1.name then acc
  else acc ++ [{ name := c.1.name, type := c.2, line := lineNumber content c.1.start }]

/-- Modelled from the spec wording: first pattern (in registry order) to
match a given name wins; later matches of an already-captured name are
discarded, whatever their kind. -/
def specExtract (content : String)
    (patterns : List (List PatternMatch × String)) : List Element :=
  ((specCandidates patterns).filter keepCandidate).foldl (specStep content) []

/-! ## Coverage checking -/

/-- Python `round(x, 1)`: round to one decimal place.  Modelled as exact
rational rounding; no value appearing in the theorems below lies at an
exact midpoint, so the difference between round-half-even on binary doubles
and `round` on `ℚ` cannot show. -/
def roundTenth (q : ℚ) : ℚ :=
  ((round (q * 10) : ℤ) : ℚ) / 10

/-- `check_file_coverage(source_file, elements, analysis_index)`.  The
source accumulates `covered`/`missing` by one pass over `elements`; the two
filters below produce the same two name lists in the same order. -/
def check_file_coverage (source_file : SourceFile) (elements : List Element)
    (analysis_index : AnalysisIndex) : CoverageResult :=
  let filename := basename source_file.file
  if elements.isEmpty then
    let mentioned := analysis_index.is_filename_mentioned filename
    { elements_total := 0
      elements_covered := 0
      elements_missing := []
      coverage_pct := if mentioned then 100 else 0
      status := if mentioned then "ADEQUATE" else "MISSING"
      method := "filename_fallback" }
  else
    let covered := (elements.filter
      (fun e => analysis_index.is_element_covered e.name)).map Element.name
    let missing := (elements.filter
      (fun e => !analysis_index.is_element_covered e.name)).map Element.name
    let total := elements.length
    let covered_count := covered.length
    let pct : ℚ := if 0 < total then (covered_count : ℚ) / (total : ℚ) * 100 else 0
    let status :=
      if ADEQUATE_COVERAGE_PCT ≤ pct then "ADEQUATE"
      else if 0 < covered_count then "SHALLOW"
      else if analysis_index.is_filename_mentioned filename then "SHALLOW"
      else "MISSING"
    { elements_total := total
      elements_covered := covered_count
      elements_missing := missing
      coverage_pct := roundTenth pct
      status := status
      method := "element_coverage" }

/-! ## Gap classification -/

/-- The `$`-anchored literal alternatives of the `test_patterns` list in
`classify_gap`: `Tests?\.cs$` … `Tests?\.tsx$`, `\.test\.(js|ts|tsx|jsx)$`,
`\.spec\.(js|ts|tsx|jsx)$`, `.*_test\.py$` and `.*_test\.go$` (a leading
`.*` is vacuous under `re.search`). -/
def TEST_NAME_SUFFIXES : List String :=
  ["Test.cs", "Tests.cs", "Test.js", "Tests.js", "Test.ts", "Tests.ts",
   "Test.tsx", "Tests.tsx",
   ".test.js", ".test.ts", ".test.tsx", ".test.jsx",
   ".spec.js", ".spec.ts", ".spec.tsx", ".spec.jsx",
   "_test.py", "_test.go"]

/-- Test-file detection of `classify_gap`: some pattern of `test_patterns`
matches the basename under `re.search`.  The only non-suffix pattern is
`test_.*\.py$`, which matches exactly when the name ends in `.py` and
`test_` occurs somewhere in the part before that suffix (filenames contain
no newline, so `.*` spans everything between). -/
def isTestFile (filename : String) : Bool :=
  TEST_NAME_SUFFIXES.any (fun suf => strEndsWith filename suf) ||
  (strEndsWith filename ".py" && strContainsSub (dropRightStr filename 3) "test_")

/-- `classify_gap(source_file, status, coverage_result)`. -/
def classify_gap (source_file : SourceFile) (status : String)
    (coverage_result : CoverageResult) : String :=
  if isTestFile (basename source_file.file) then "TEST"
  else if status = "MISSING" then
    if 200 < source_file.source_lines then "CRITICAL" else "IMPORTANT"
  else if status = "SHALLOW" then
    if 5 < coverage_result.elements_missing.length ∨ 500 < source_file.source_lines then
      "CRITICAL"
    else if 2 < coverage_result.elements_missing.length ∨ 200 < source_file.source_lines then
      "IMPORTANT"
    else "MINOR"
  else "MINOR"

/-! ## Shared element detection -/

/-- Python `str.islower()` on ASCII identifiers: at least one cased (alphabetic)
character and no uppercase one. -/
def pythonIsLower (s : String) : Bool :=
  s.data.any (fun c => c.isAlpha) && s.data.all (fun c => !c.isUpper)

/-- Descending caller-count comparison, the `key=lambda s: -s["caller_count"]`
ascending order of the final `shared.sort`. -/
def sharedLE (a b : SharedElement) : Bool :=
  b.caller_count ≤ a.caller_count

/-- `detect_shared_elements(all_elements_by_file, codebase_index)`.  The
elements dict is modelled as an association list in iteration order; the
codebase identifier index `identifier → set of files` is modelled as a
function to the list of files (`index.get(name, set())`), over which the
source only filters, sorts and counts. -/
def detect_shared_elements (all_elements_by_file : List (String × List Element))
    (codebase_index : String → List String) : List SharedElement :=
  let shared := all_elements_by_file.flatMap (fun fe =>
    fe.2.filterMap (fun elem =>
      let name := elem.name
      if name.length < 4 then none
      else if pythonIsLower name && !(name.data.contains '_') then none
      else
        let referencing_files := codebase_index name
        let callers := pySort strLE (referencing_files.filter (fun f => f ≠ fe.1))
        if SHARED_ELEMENT_MIN_CALLERS ≤ callers.length then
          some { name := name
                 type := elem.type
                 defined_in := fe.1
                 line := elem.line
                 callers := callers
                 caller_count := callers.length }
        else none))
  pySort sharedLE shared

/-! ## Gap aggregation and sorting (`run_audit`, phase 4 and the sort) -/

/-- `severity_order.get(severity, 99)` of the gap sort in `run_audit`. -/
def severity_order (sev : String) : Nat :=
  if sev = "CRITICAL" then 0
  else if sev = "IMPORTANT" then 1
  else if sev = "MINOR" then 2
  else if sev = "TEST" then 3
  else 99

/-- Ascending comparison on the sort key tuple
`(severity_order, -missing_count, -source_lines)` used by `gaps.sort`. -/
def gapLE (a b : Gap) : Bool :=
  severity_order a.severity < severity_order b.severity ||
  (severity_order a.severity = severity_order b.severity &&
    (b.elements_missing.length < a.elements_missing.length ||
     (a.elements_missing.length = b.elements_missing.length &&
      b.source_lines ≤ a.source_lines)))

/-- The gap record `run_audit` appends for a non-ADEQUATE file. -/
def build_gap (sf : SourceFile) (result : CoverageResult) : Gap :=
  { file := sf.file
    repo := sf.repo_name
    source_lines := sf.source_lines
    elements_total := result.elements_total
    elements_covered := result.elements_covered
    elements_missing := result.elements_missing
    coverage_pct := result.coverage_pct
    status := result.status
    severity := classify_gap sf result.status result
    method := result.method }

/-- Phase 4 of `run_audit` followed by the gap sort: check coverage per
enumerated source file (paired with its extracted elements), keep a gap for
every non-ADEQUATE status, and sort by the severity-rank key.  The phases
feeding this (enumeration, extraction, index building) supply `files` and
`idx`; the `gaps` field of the report is exactly this list. -/
def audit_gaps (files : List (SourceFile × List Element))
    (idx : AnalysisIndex) : List Gap :=
  let gaps := files.filterMap (fun fe =>
    let result := check_file_coverage fe.1 fe.2 idx
    if result.status = "ADEQUATE" then none
    else some (build_gap fe.1 result))
  pySort gapLE gaps

/-! ## Source file enumeration -/

/-- One file met by the `os.walk` of `enumerate_source_files`, with the
path pieces the source derives from it.  `lines` abstracts the on-disk
content: `none` means opening the file raises (`OSError` or decode failure),
`some n` that reading it yields `n` lines.  `rel_path` is
`os.path.relpath(full_path, repo_path)`. -/
structure FSFile where
  fname : String
  full_path : String
  rel_path : String
  lines : Option Nat
deriving DecidableEq

/-- `count_lines(file_path)`: the line count of the file, or 0 when it
cannot be read. -/
def count_lines (f : FSFile) : Nat :=
  match f.lines with
  | some n => n
  | none => 0

/-- Split a character list at a separator (keeping empty pieces). -/
def splitOnChar (sep : Char) : List Char → List (List Char)
  | [] => [[]]
  | c :: cs =>
    match splitOnChar sep cs with
    | [] => if c = sep then [[], []] else [[c]]
    | h :: t => if c = sep then [] :: h :: t else (c :: h) :: t

/-- The path components used by `should_exclude` (`Path(file_path).parts`,
up to empty pieces from repeated or leading slashes, which never equal an
excluded directory name). -/
def pathParts (p : String) : List String :=
  (splitOnChar '/' p.data).map String.mk

/-- `should_exclude(file_path, exclude_patterns)`: a path component is an
always-excluded directory, or some exclude pattern occurs as a substring of
the path. -/
def should_exclude (file_path : String) (exclude_patterns : List String) : Bool :=
  (pathParts file_path).any (fun part => DEFAULT_EXCLUDE_DIRS.contains part) ||
  exclude_patterns.any (fun pattern => strContainsSub file_path pattern)

/-- `Path(fname).suffix.lower()`: the lowercased extension from the last
dot, empty when there is no dot, the only dot leads the name, or nothing
follows the dot. -/
def suffixLower (fname : String) : String :=
  let rev := fname.data.reverse
  let extRev := rev.takeWhile (fun c => c ≠ '.')
  if extRev.length ≠ 0 ∧ extRev.length + 1 < fname.data.length then
    String.mk (('.' :: extRev.reverse).map Char.toLower)
  else ""

/-- The per-file body of the enumeration loop: skip untracked extensions
and excluded paths, then keep the file exactly when its line count is
positive. -/
def enum_file (exclude_patterns : List String) (f : FSFile) : Option SourceFile :=
  if !SOURCE_EXTENSIONS.contains (suffixLower f.fname) then none
  else if should_exclude f.full_path exclude_patterns then none
  else if 0 < count_lines f then
    some { file := f.rel_path
           abs_path := f.full_path
           source_lines := count_lines f
           extension := suffixLower f.fname }
  else none

/-- `enumerate_source_files(repo_path, exclude_patterns)`: filter the files
met by the walk (flattened here to a list; directory pruning only removes
files whose paths `should_exclude` rejects anyway) by tracked extension,
exclusion rules and a positive line count. -/
def enumerate_source_files (files : List FSFile)
    (exclude_patterns : List String) : List SourceFile :=
  files.filterMap (enum_file exclude_patterns)

/-! ## Helper lemmas -/

theorem roundTenth_zero : roundTenth 0 = 0 := by
  simp [roundTenth]

theorem roundTenth_nonneg {q : ℚ} (h : 0 ≤ q) : 0 ≤ roundTenth q := by
  rw [roundTenth]
  have h1 : (0 : ℤ) ≤ round (q * 10) := by
    rw [round_eq]
    exact Int.floor_nonneg.2 (by linarith)
  have h2 : (0 : ℚ) ≤ ((round (q * 10) : ℤ) : ℚ) := by exact_mod_cast h1
  linarith

theorem roundTenth_le_hundred {q : ℚ} (h : q ≤ 100) : roundTenth q ≤ 100 := by
  rw [roundTenth]
  have h1 : round (q * 10) ≤ 1000 := by
    rw [round_eq]
    have hf : (⌊q * 10 + 1 / 2⌋ : ℤ) ≤ ⌊(1000 : ℚ) + 1 / 2⌋ := Int.floor_mono (by linarith)
    have he : (⌊(1000 : ℚ) + 1 / 2⌋ : ℤ) = 1000 := by
      rw [Int.floor_eq_iff]
      norm_num
    omega
  have h2 : ((round (q * 10) : ℤ) : ℚ) ≤ 1000 := by exact_mod_cast h1
  linarith

theorem sharedLE_total (a b : SharedElement) : sharedLE a b = true ∨ sharedLE b a = true := by
  simp only [sharedLE, decide_eq_true_eq]
  omega

theorem sharedLE_trans (a b c : SharedElement) :
    sharedLE a b = true → sharedLE b c = true → sharedLE a c = true := by
  simp only [sharedLE, decide_eq_true_eq]
  omega

theorem gapLE_total (a b : Gap) : gapLE a b = true ∨ gapLE b a = true := by
  simp only [gapLE, Bool.or_eq_true, Bool.and_eq_true, decide_eq_true_eq]
  omega

theorem gapLE_trans (a b c : Gap) :
    gapLE a b = true → gapLE b c = true → gapLE a c = true := by
  simp only [gapLE, Bool.or_eq_true, Bool.and_eq_true, decide_eq_true_eq]
  omega

/-- Evaluation of `check_file_coverage` on a nonempty element list none of
whose elements is covered: the covered list is empty, the percentage is 0,
and the status falls through to the filename-mention check. -/
theorem check_file_coverage_none_covered (sf : SourceFile) (elements : List Element)
    (idx : AnalysisIndex) (h : elements ≠ [])
    (hc : ∀ e ∈ elements, idx.is_element_covered e.name = false) :
    check_file_coverage sf elements idx =
      { elements_total := elements.length
        elements_covered := 0
        elements_missing := elements.map Element.name
        coverage_pct := 0
        status := if idx.is_filename_mentioned (basename sf.file) then "SHALLOW"
                  else "MISSING"
        method := "element_coverage" } := by
  have hne : elements.isEmpty = false := List.isEmpty_eq_false.mpr h
  have hfil : elements.filter (fun e => idx.is_element_covered e.name) = [] :=
    List.filter_eq_nil_iff.mpr (fun e he => by simp [hc e he])
  have hfil2 : elements.filter (fun e => !idx.is_element_covered e.name) = elements :=
    List.filter_eq_self.mpr (fun e he => by simp [hc e he])
  have hlen : 0 < elements.length := List.length_pos.mpr h
  simp only [check_file_coverage, hne, Bool.false_eq_true, if_false, hfil, hfil2,
    List.map_nil, List.length_nil, if_pos hlen, ADEQUATE_COVERAGE_PCT]
  norm_num [roundTenth_zero]

/-- A file whose `count_lines` is 0 is dropped by the enumeration body. -/
theorem enum_file_eq_none (excl : List String) (f : FSFile)
    (h : count_lines f = 0) : enum_file excl f = none := by
  rw [enum_file, h]
  simp

/-- The nested per-pattern loops visit candidates exactly in
`specCandidates` order. -/
theorem foldl_specCandidates (content : String) :
    ∀ (ps : List (List PatternMatch × String)) (acc : List Element × List String),
      ps.foldl
        (fun acc p => (p.1.map (fun m => (m, p.2))).foldl (extractStep content) acc) acc
        = (specCandidates ps).foldl (extractStep content) acc
  | [], _ => rfl
  | p :: ps, acc => by
    conv_rhs => rw [specCandidates, List.flatMap_cons, List.foldl_append]
    rw [List.foldl_cons, foldl_specCandidates content ps _, specCandidates]

/-- The extraction loop from a state whose seen-set is exactly the names of
the accumulated elements agrees with the filtered first-wins fold, and
preserves that state shape. -/
theorem extract_fold_spec (content : String) :
    ∀ (l : List (PatternMatch × String)) (es : List Element),
      l.foldl (extractStep content) (es, es.map Element.name)
        = ((l.filter keepCandidate).foldl (specStep content) es,
           ((l.filter keepCandidate).foldl (specStep content) es).map Element.name)
  | [], es => by simp
  | c :: l, es => by
    by_cases h1 : c.1.name.length < MIN_ELEMENT_NAME_LENGTH
    · have hk : ¬ (keepCandidate c = true) := by simp [keepCandidate, h1]
      rw [List.foldl_cons, List.filter_cons, if_neg hk, extractStep, if_pos h1]
      exact extract_fold_spec content l es
    · by_cases h2 : SKIP_ELEMENT_NAMES.contains (lowerStr c.1.name) = true
      · have h2m : lowerStr c.1.name ∈ SKIP_ELEMENT_NAMES := by simpa using h2
        have hk : ¬ (keepCandidate c = true) := by simp [keepCandidate, h1, h2m]
        rw [List.foldl_cons, List.filter_cons, if_neg hk, extractStep, if_neg h1, if_pos h2]
        exact extract_fold_spec content l es
      · have h2m : lowerStr c.1.name ∉ SKIP_ELEMENT_NAMES := by simpa using h2
        have hk : keepCandidate c = true := by simp [keepCandidate, h1, h2m]
        rw [List.foldl_cons, List.filter_cons, if_pos hk, List.foldl_cons]
        by_cases h3 : (es.map Element.name).contains c.1.name = true
        · rw [extractStep, if_neg h1, if_neg h2, if_pos h3, specStep, if_pos h3]
          exact extract_fold_spec content l es
        · rw [extractStep, if_neg h1, if_neg h2, if_neg h3, specStep, if_neg h3]
          have h := extract_fold_spec content l
            (es ++ [{ name := c.1.name, type := c.2, line := lineNumber content c.1.start }])
          rw [List.map_append] at h
          simp only [List.map_cons, List.map_nil] at h
          exact h

/-- The implementation extraction equals the spec-side first-wins dedup. -/
theorem extract_elements_eq_spec (content : String)
    (ps : List (List PatternMatch × String)) :
    extract_elements content ps = specExtract content ps := by
  rw [extract_elements, foldl_specCandidates content ps ([], [])]
  have h := extract_fold_spec content (specCandidates ps) []
  simp only [List.map_nil] at h
  rw [h]
  rfl

/-- The first-wins fold keeps element names pairwise distinct. -/
theorem nodup_specFold (content : String) :
    ∀ (l : List (PatternMatch × String)) (es : List Element),
      (es.map Element.name).Nodup →
      ((l.foldl (specStep content) es).map Element.name).Nodup
  | [], _, h => h
  | c :: l, es, h => by
    rw [List.foldl_cons]
    by_cases h3 : (es.map Element.name).contains c.1.name = true
    · rw [specStep, if_pos h3]
      exact nodup_specFold content l es h
    · rw [specStep, if_neg h3]
      apply nodup_specFold content l
      have hnm : c.1.name ∉ es.map Element.name := by
        intro hm
        apply h3
        simp only [List.contains, List.elem_eq_mem, decide_eq_true_eq]
        exact hm
      rw [List.map_append]
      simp only [List.map_cons, List.map_nil]
      rw [List.nodup_append]
      refine ⟨h, List.nodup_singleton _, ?_⟩
      intro a ha hb
      rw [List.mem_singleton] at hb
      subst hb
      exact hnm ha

/-- Every element produced by the first-wins fold from well-filtered
candidates passes the name-length and skip-set filters. -/
theorem good_specFold (content : String) :
    ∀ (l : List (PatternMatch × String)) (es : List Element),
      (∀ e ∈ es, MIN_ELEMENT_NAME_LENGTH ≤ e.name.length ∧
        SKIP_ELEMENT_NAMES.contains (lowerStr e.name) = false) →
      (∀ c ∈ l, keepCandidate c = true) →
      ∀ e ∈ l.foldl (specStep content) es,
        MIN_ELEMENT_NAME_LENGTH ≤ e.name.length ∧
        SKIP_ELEMENT_NAMES.contains (lowerStr e.name) = false
  | [], _, hes, _, e, he => hes e he
  | c :: l, es, hes, hl, e, he => by
    rw [List.foldl_cons] at he
    refine good_specFold content l _ ?_
      (fun c2 hc2 => hl c2 (List.mem_cons_of_mem _ hc2)) e he
    intro e2 he2
    by_cases h3 : (es.map Element.name).contains c.1.name = true
    · rw [specStep, if_pos h3] at he2
      exact hes e2 he2
    · rw [specStep, if_neg h3] at he2
      rcases List.mem_append.1 he2 with hmem | hmem
      · exact hes e2 hmem
      · rw [List.mem_singleton] at hmem
        subst hmem
        have hk := hl c (List.mem_cons_self _ _)
        simp only [keepCandidate, Bool.and_eq_true, Bool.not_eq_true',
          decide_eq_false_iff_not] at hk
        refine ⟨?_, ?_⟩
        · show MIN_ELEMENT_NAME_LENGTH ≤ c.1.name.length
          omega
        · show SKIP_ELEMENT_NAMES.contains (lowerStr c.1.name) = false
          simpa using hk.2

/-! ## Claims -/

/-- C7: for a source file with no extractable elements, `check_file_coverage`
returns method `filename_fallback`, with status ADEQUATE and
coverage_pct 100.0 when the bare filename is mentioned in the analysis, and
status MISSING with coverage_pct 0.0 otherwise; no failure is possible. -/
theorem check_file_coverage_empty_fallback (sf : SourceFile) (idx : AnalysisIndex) :
    (check_file_coverage sf [] idx).method = "filename_fallback" ∧
    (check_file_coverage sf [] idx).status =
      (if idx.is_filename_mentioned (basename sf.file) = true then "ADEQUATE"
       else "MISSING") ∧
    (check_file_coverage sf [] idx).coverage_pct =
      (if idx.is_filename_mentioned (basename sf.file) = true then 100 else 0) := by
  by_cases hm : idx.is_filename_mentioned (basename sf.file) = true <;>
    simp [check_file_coverage, hm]

/-- C4: `classify_gap` returns severity TEST exactly when the base name of
the file matches a recognized test-file naming convention, regardless of the
coverage status or any other input. -/
theorem classify_gap_test_iff (sf : SourceFile) (status : String)
    (cov : CoverageResult) :
    classify_gap sf status cov = "TEST" ↔ isTestFile (basename sf.file) = true := by
  by_cases h : isTestFile (basename sf.file) = true
  · simp [classify_gap, h]
  · have hne : classify_gap sf status cov ≠ "TEST" := by
      rw [classify_gap, if_neg h]
      split_ifs <;> decide
    exact iff_of_false hne h

/-- C2: on a non-test file, `classify_gap` returns, for status MISSING,
CRITICAL exactly when the file has more than 200 lines and IMPORTANT
otherwise; for status SHALLOW, CRITICAL when more than 5 elements are
missing or the file has more than 500 lines, else IMPORTANT when more than
2 elements are missing or the file has more than 200 lines, else MINOR. -/
theorem classify_gap_nontest_severity (sf : SourceFile) (status : String)
    (cov : CoverageResult) (h : isTestFile (basename sf.file) = false) :
    (status = "MISSING" →
      classify_gap sf status cov =
        (if 200 < sf.source_lines then "CRITICAL" else "IMPORTANT")) ∧
    (status = "SHALLOW" →
      classify_gap sf status cov =
        (if 5 < cov.elements_missing.length ∨ 500 < sf.source_lines then "CRITICAL"
         else if 2 < cov.elements_missing.length ∨ 200 < sf.source_lines then "IMPORTANT"
         else "MINOR")) := by
  have h2 : ¬ (isTestFile (basename sf.file) = true) := by simp [h]
  constructor <;> intro hs <;> rw [classify_gap, if_neg h2, hs] <;> simp

def c2_sf : SourceFile :=
  { file := "src/core/engine.py", abs_path := "/repo/src/core/engine.py",
    source_lines := 250, extension := ".py", repo_name := "app" }

def c2_elements : List Element :=
  [⟨"gapAlpha", "function", 1⟩, ⟨"gapBeta", "function", 2⟩,
   ⟨"gapGamma", "function", 3⟩, ⟨"gapDelta", "function", 4⟩,
   ⟨"gapEpsilon", "function", 5⟩, ⟨"gapZeta", "function", 6⟩,
   ⟨"gapEta", "function", 7⟩, ⟨"gapTheta", "function", 8⟩,
   ⟨"gapIota", "function", 9⟩, ⟨"gapKappa", "function", 10⟩]

def c2_idx : AnalysisIndex :=
  { is_element_covered := fun _ => false, is_filename_mentioned := fun _ => false }

/-- Witness for C2: a 250-line non-test file with 10 extracted and 0
covered elements whose filename is never mentioned gets status MISSING and
severity CRITICAL. -/
theorem classify_gap_nontest_severity_instance :
    isTestFile (basename c2_sf.file) = false ∧
    (check_file_coverage c2_sf c2_elements c2_idx).status = "MISSING" ∧
    (check_file_coverage c2_sf c2_elements c2_idx).elements_missing.length = 10 ∧
    classify_gap c2_sf "MISSING" (check_file_coverage c2_sf c2_elements c2_idx) =
      "CRITICAL" := by
  have hcov := check_file_coverage_none_covered c2_sf c2_elements c2_idx
    (by decide) (by decide)
  have hcls := (classify_gap_nontest_severity c2_sf "MISSING"
    (check_file_coverage c2_sf c2_elements c2_idx) (by decide)).1 rfl
  refine ⟨by decide, ?_, ?_, ?_⟩
  · rw [hcov]
    decide
  · rw [hcov]
    decide
  · rw [hcls]
    decide

/-- C6: for a nonempty element list none of whose elements is covered,
`check_file_coverage` computes coverage_pct 0 and returns status SHALLOW
when the bare filename is mentioned in the analysis, MISSING otherwise. -/
theorem check_file_coverage_zero_covered_status (sf : SourceFile)
    (elements : List Element) (idx : AnalysisIndex) (h : elements ≠ [])
    (hc : ∀ e ∈ elements, idx.is_element_covered e.name = false) :
    (check_file_coverage sf elements idx).coverage_pct = 0 ∧
    (check_file_coverage sf elements idx).status =
      (if idx.is_filename_mentioned (basename sf.file) = true then "SHALLOW"
       else "MISSING") := by
  rw [check_file_coverage_none_covered sf elements idx h hc]
  exact ⟨rfl, rfl⟩

def c6_sf : SourceFile :=
  { file := "src/util/helpers.py", abs_path := "/repo/src/util/helpers.py",
    source_lines := 40, extension := ".py", repo_name := "app" }

def c6_elements : List Element := [⟨"formatDate", "function", 3⟩]

def c6_idx : AnalysisIndex :=
  { is_element_covered := fun _ => false
    is_filename_mentioned := fun n => n == "helpers.py" }

/-- Witness for C6: one uncovered element, filename mentioned in prose. -/
theorem check_file_coverage_zero_covered_status_instance :
    (check_file_coverage c6_sf c6_elements c6_idx).coverage_pct = 0 ∧
    (check_file_coverage c6_sf c6_elements c6_idx).status =
      (if c6_idx.is_filename_mentioned (basename c6_sf.file) = true then "SHALLOW"
       else "MISSING") :=
  check_file_coverage_zero_covered_status c6_sf c6_elements c6_idx
    (by decide) (by decide)

/-- C10: a file that cannot be read or whose line count is 0 is silently
omitted by `enumerate_source_files`: dropping it from the walked file list
leaves the enumeration unchanged, so it contributes nothing to any
downstream statistic, extraction, coverage result or gap; moreover every
enumerated file has a positive line count. -/
theorem enumerate_source_files_skips_unreadable (l1 l2 : List FSFile) (f : FSFile)
    (excl : List String) (h : f.lines = none ∨ f.lines = some 0) :
    enumerate_source_files (l1 ++ f :: l2) excl = enumerate_source_files (l1 ++ l2) excl ∧
    ∀ sf ∈ enumerate_source_files (l1 ++ f :: l2) excl, 0 < sf.source_lines := by
  have hcl : count_lines f = 0 := by
    rcases h with h | h <;> simp [count_lines, h]
  constructor
  · rw [enumerate_source_files, enumerate_source_files, List.filterMap_append,
      List.filterMap_append, List.filterMap_cons, enum_file_eq_none excl f hcl]
  · intro sf hsf
    rw [enumerate_source_files, List.mem_filterMap] at hsf
    obtain ⟨f0, _, hf0⟩ := hsf
    rw [enum_file] at hf0
    by_cases hA : (!SOURCE_EXTENSIONS.contains (suffixLower f0.fname)) = true
    · rw [if_pos hA] at hf0
      exact absurd hf0 (by simp)
    · rw [if_neg hA] at hf0
      by_cases hB : should_exclude f0.full_path excl = true
      · rw [if_pos hB] at hf0
        exact absurd hf0 (by simp)
      · rw [if_neg hB] at hf0
        by_cases hC : 0 < count_lines f0
        · rw [if_pos hC, Option.some.injEq] at hf0
          subst hf0
          exact hC
        · rw [if_neg hC] at hf0
          exact absurd hf0 (by simp)

def c10_good : FSFile :=
  { fname := "app.py", full_path := "/repo/app.py", rel_path := "app.py",
    lines := some 12 }

def c10_bad : FSFile :=
  { fname := "broken.py", full_path := "/repo/broken.py", rel_path := "broken.py",
    lines := none }

/-- Witness for C10: an unreadable `.py` file disappears from the
enumeration. -/
theorem enumerate_source_files_skips_unreadable_instance :
    enumerate_source_files ([c10_good] ++ c10_bad :: []) [] =
      enumerate_source_files ([c10_good] ++ []) [] ∧
    ∀ sf ∈ enumerate_source_files ([c10_good] ++ c10_bad :: []) [],
      0 < sf.source_lines :=
  enumerate_source_files_skips_unreadable [c10_good] [] c10_bad [] (Or.inl rfl)

/-- What the extraction filter actually guarantees: every element returned
by `extract_elements` has a name of length at least the configured minimum
(3) whose lowercasing is not literally in the skip list — for any file
content, any pattern registry of any extension and any match lists the
regex engine produces.  This is strictly weaker than case-insensitive
non-membership, because the skip list itself holds mixed-case entries that
a lowercased name can never equal (see the failing input below). -/
theorem extract_elements_name_filters (content : String)
    (patterns : List (List PatternMatch × String)) (e : Element)
    (he : e ∈ extract_elements content patterns) :
    MIN_ELEMENT_NAME_LENGTH ≤ e.name.length ∧
    SKIP_ELEMENT_NAMES.contains (lowerStr e.name) = false := by
  rw [extract_elements_eq_spec, specExtract] at he
  exact good_specFold content _ [] (by simp)
    (fun c hc => (List.mem_filter.1 hc).2) e he

/-- The match the class-method rule of the JS/TS family yields on a file
containing a line `  toString() {}`: captured name `toString`, offset 2. -/
def c5_bug_patterns : List (List PatternMatch × String) :=
  [([⟨"toString", 2⟩], "method")]

/-- C5 (code bug): `toString` is literally a member of the generic
skip-set — hence a member under case-insensitive comparison — yet an
element named `toString` is extracted, because the code compares only the
lowercased candidate name (`tostring`) against the mixed-case skip-set
entries, leaving every mixed-case entry (`toString`, `hashCode`, `setUp`,
`toJSON`, `componentDidMount`, …) unable to match any candidate. -/
theorem toString_extracted_despite_skip_set :
    "toString" ∈ SKIP_ELEMENT_NAMES ∧
    (⟨"toString", "method", 1⟩ : Element) ∈
      extract_elements "  toString() {}" c5_bug_patterns := by
  decide

/-- C8: `extract_elements` enforces per-file name uniqueness with
first-pattern-wins semantics: it equals the fold that filters candidates
and keeps only the first occurrence of each name (discarding later matches
of that name even under a different kind), and consequently the returned
list never contains two elements with equal names. -/
theorem extract_elements_first_wins_nodup (content : String)
    (patterns : List (List PatternMatch × String)) :
    extract_elements content patterns = specExtract content patterns ∧
    ((extract_elements content patterns).map Element.name).Nodup := by
  refine ⟨extract_elements_eq_spec content patterns, ?_⟩
  rw [extract_elements_eq_spec content patterns, specExtract]
  exact nodup_specFold content _ [] (by simp)

/-- C9: the gap list of the report is sorted by ascending severity rank
(CRITICAL 0, IMPORTANT 1, MINOR 2, TEST 3), ties broken by descending
missing-element count, then by descending source line count. -/
theorem audit_gaps_sorted (files : List (SourceFile × List Element))
    (idx : AnalysisIndex) :
    (audit_gaps files idx).Pairwise (fun a b =>
      severity_order a.severity < severity_order b.severity ∨
      (severity_order a.severity = severity_order b.severity ∧
        (b.elements_missing.length < a.elements_missing.length ∨
         (a.elements_missing.length = b.elements_missing.length ∧
          b.source_lines ≤ a.source_lines)))) := by
  rw [audit_gaps]
  exact (pairwise_pySort gapLE gapLE_total gapLE_trans _).imp
    (fun h => by
      simpa only [gapLE, Bool.or_eq_true, Bool.and_eq_true, decide_eq_true_eq] using h)

/-- C3: every shared element detected has at least the configured minimum
(2) of callers, its caller list is sorted (Python string order) and never
contains the defining file, and the returned list is ordered by descending
caller count. -/
theorem detect_shared_elements_invariants
    (abf : List (String × List Element)) (cidx : String → List String)
    (se : SharedElement) (hmem : se ∈ detect_shared_elements abf cidx) :
    (SHARED_ELEMENT_MIN_CALLERS ≤ se.caller_count ∧
     se.callers.Pairwise (fun a b => strLE a b = true) ∧
     se.defined_in ∉ se.callers) ∧
    (detect_shared_elements abf cidx).Pairwise
      (fun a b => b.caller_count ≤ a.caller_count) := by
  constructor
  · simp only [detect_shared_elements] at hmem
    rw [mem_pySort, List.mem_flatMap] at hmem
    obtain ⟨fe, _, hmem2⟩ := hmem
    rw [List.mem_filterMap] at hmem2
    obtain ⟨elem, _, hsome⟩ := hmem2
    by_cases hA : elem.name.length < 4
    · rw [if_pos hA] at hsome
      exact absurd hsome (by simp)
    · rw [if_neg hA] at hsome
      by_cases hB : (pythonIsLower elem.name && !elem.name.data.contains '_') = true
      · rw [if_pos hB] at hsome
        exact absurd hsome (by simp)
      · rw [if_neg hB] at hsome
        by_cases hC : SHARED_ELEMENT_MIN_CALLERS ≤
            (pySort strLE ((cidx elem.name).filter (fun f => f ≠ fe.1))).length
        · rw [if_pos hC, Option.some.injEq] at hsome
          subst hsome
          refine ⟨hC, pairwise_pySort strLE strLE_total strLE_trans _, ?_⟩
          intro hin
          rw [mem_pySort, List.mem_filter] at hin
          have h2 := hin.2
          simp at h2
        · rw [if_neg hC] at hsome
          exact absurd hsome (by simp)
  · simp only [detect_shared_elements]
    exact (pairwise_pySort sharedLE sharedLE_total sharedLE_trans _).imp
      (fun h => by simpa only [sharedLE, decide_eq_true_eq] using h)

def c3_abf : List (String × List Element) :=
  [("auth.js", [⟨"validateToken", "function", 1⟩])]

def c3_cidx : String → List String :=
  fun n => if n == "validateToken" then ["session.js", "auth.js", "login.js"] else []

def c3_se : SharedElement :=
  { name := "validateToken", type := "function", defined_in := "auth.js",
    line := 1, callers := ["login.js", "session.js"], caller_count := 2 }

/-- Witness for C3 (Scenario D): `validateToken` defined in `auth.js` and
referenced from `login.js` and `session.js` is emitted with caller_count 2
and sorted callers excluding `auth.js`. -/
theorem detect_shared_elements_invariants_instance :
    (SHARED_ELEMENT_MIN_CALLERS ≤ c3_se.caller_count ∧
     c3_se.callers.Pairwise (fun a b => strLE a b = true) ∧
     c3_se.defined_in ∉ c3_se.callers) ∧
    (detect_shared_elements c3_abf c3_cidx).Pairwise
      (fun a b => b.caller_count ≤ a.caller_count) :=
  detect_shared_elements_invariants c3_abf c3_cidx c3_se (by decide)

/-- C1 (amended): for a file checked with method element_coverage the
reported coverage_pct lies in [0, 100], and the status is ADEQUATE exactly
when the unrounded percentage `covered / total * 100` is at least 60.  (The
reported coverage_pct itself is that percentage rounded to one decimal and
can reach 60.0 on a SHALLOW file, see the counterexample.) -/
theorem check_file_coverage_pct_bounds_adequate_iff (sf : SourceFile)
    (elements : List Element) (idx : AnalysisIndex) (h : elements ≠ []) :
    (check_file_coverage sf elements idx).method = "element_coverage" ∧
    0 ≤ (check_file_coverage sf elements idx).coverage_pct ∧
    (check_file_coverage sf elements idx).coverage_pct ≤ 100 ∧
    ((check_file_coverage sf elements idx).status = "ADEQUATE" ↔
      ADEQUATE_COVERAGE_PCT ≤
        (((elements.filter (fun e => idx.is_element_covered e.name)).length : ℚ) /
          (elements.length : ℚ)) * 100) := by
  have hne : elements.isEmpty = false := List.isEmpty_eq_false.mpr h
  have hlen : 0 < elements.length := List.length_pos.mpr h
  have hlenQ : (0 : ℚ) < (elements.length : ℚ) := by exact_mod_cast hlen
  have hcle : (elements.filter (fun e => idx.is_element_covered e.name)).length ≤
      elements.length := List.length_filter_le _ _
  have hdiv1 : (((elements.filter (fun e => idx.is_element_covered e.name)).length : ℚ) /
      (elements.length : ℚ)) ≤ 1 := by
    rw [div_le_one hlenQ]
    exact_mod_cast hcle
  simp only [check_file_coverage, hne, Bool.false_eq_true, if_false, if_pos hlen,
    List.length_map]
  refine ⟨by trivial, roundTenth_nonneg (by positivity),
    roundTenth_le_hundred (by linarith), ?_⟩
  by_cases hA : ADEQUATE_COVERAGE_PCT ≤
      (((elements.filter (fun e => idx.is_element_covered e.name)).length : ℚ) /
        (elements.length : ℚ)) * 100
  · rw [if_pos hA]
    simp [hA]
  · rw [if_neg hA]
    simp only [hA, iff_false]
    split_ifs <;> decide

def c1_sf : SourceFile :=
  { file := "src/metrics/engine.ts", abs_path := "/repo/src/metrics/engine.ts",
    source_lines := 3000, extension := ".ts", repo_name := "app" }

def c1_covered_elem : Element := ⟨"coveredName", "function", 1⟩

def c1_missing_elem : Element := ⟨"missingName", "function", 2⟩

/-- 1499 covered and 1001 uncovered elements: the exact percentage is
59.96, which the status test rejects but the one-decimal rounding reports
as 60.0. -/
def c1_elements : List Element :=
  List.replicate 1499 c1_covered_elem ++ List.replicate 1001 c1_missing_elem

def c1_idx : AnalysisIndex :=
  { is_element_covered := fun n => n == "coveredName"
    is_filename_mentioned := fun _ => false }

/-- Counterexample to C1 as stated: with 1499 of 2500 elements covered the
returned CoverageResult has method element_coverage and coverage_pct 60.0
(which is ≥ 60 and inside [0, 100]), yet its status is SHALLOW, refuting
`status = ADEQUATE ⇔ coverage_pct ≥ 60` for the reported (rounded) field. -/
theorem rounded_pct_sixty_but_shallow :
    (check_file_coverage c1_sf c1_elements c1_idx).method = "element_coverage" ∧
    ADEQUATE_COVERAGE_PCT ≤ (check_file_coverage c1_sf c1_elements c1_idx).coverage_pct ∧
    (check_file_coverage c1_sf c1_elements c1_idx).status = "SHALLOW" := by
  have hfil : c1_elements.filter (fun e => c1_idx.is_element_covered e.name)
      = List.replicate 1499 c1_covered_elem := by
    rw [c1_elements, List.filter_append, List.filter_replicate_of_pos (by decide),
      List.filter_replicate_of_neg (by decide), List.append_nil]
  have hfil2 : c1_elements.filter (fun e => !c1_idx.is_element_covered e.name)
      = List.replicate 1001 c1_missing_elem := by
    rw [c1_elements, List.filter_append, List.filter_replicate_of_neg (by decide),
      List.filter_replicate_of_pos (by decide), List.nil_append]
  have hlen : c1_elements.length = 2500 := by
    rw [c1_elements, List.length_append, List.length_replicate, List.length_replicate]
  have hne : c1_elements.isEmpty = false := by
    apply List.isEmpty_eq_false.mpr
    intro h0
    rw [h0] at hlen
    simp at hlen
  simp only [check_file_coverage, hne, Bool.false_eq_true, if_false, hfil, hfil2,
    List.length_map, List.length_replicate, hlen]
  have hpos : (0 : ℕ) < 2500 := by norm_num
  rw [if_pos hpos]
  have hlt : ¬ (ADEQUATE_COVERAGE_PCT ≤ ((1499 : ℕ) : ℚ) / ((2500 : ℕ) : ℚ) * 100) := by
    rw [ADEQUATE_COVERAGE_PCT]
    push_cast
    norm_num
  rw [if_neg hlt, if_pos (by norm_num : (0 : ℕ) < 1499)]
  refine ⟨by trivial, ?_, by trivial⟩
  have hr : roundTenth (((1499 : ℕ) : ℚ) / ((2500 : ℕ) : ℚ) * 100) = 60 := by
    rw [roundTenth, round_eq]
    push_cast
    have hq : (1499 : ℚ) / 2500 * 100 * 10 + 1 / 2 = 6001 / 10 := by norm_num
    rw [hq]
    have hf : (⌊(6001 : ℚ) / 10⌋ : ℤ) = 600 := by
      rw [Int.floor_eq_iff]
      norm_num
    rw [hf]
    norm_num
  rw [hr, ADEQUATE_COVERAGE_PCT]

/-- Witness for C1: a single covered element gives percentage 100,
status ADEQUATE, and the bounds hold. -/
theorem check_file_coverage_pct_bounds_adequate_iff_instance :
    (check_file_coverage c1_sf [c1_covered_elem] c1_idx).method = "element_coverage" ∧
    0 ≤ (check_file_coverage c1_sf [c1_covered_elem] c1_idx).coverage_pct ∧
    (check_file_coverage c1_sf [c1_covered_elem] c1_idx).coverage_pct ≤ 100 ∧
    ((check_file_coverage c1_sf [c1_covered_elem] c1_idx).status = "ADEQUATE" ↔
      ADEQUATE_COVERAGE_PCT ≤
        ((([c1_covered_elem].filter (fun e => c1_idx.is_element_covered e.name)).length : ℚ) /
          (([c1_covered_elem] : List Element).length : ℚ)) * 100) :=
  check_file_coverage_pct_bounds_adequate_iff c1_sf [c1_covered_elem] c1_idx (by decide)

end CoverageAudit
